import Mathlib

/-!
Shallow embedding of the appointment/availability core of the hospital
management application (`backend/app.py`): the data model (Appointment,
Treatment, DoctorAvailability rows), the booking engine
(`book_appointment`), the status lifecycle (`complete_appointment`,
`cancel_appointment`, `doctor_cancel_appointment`) and the availability
manager (`doctor_availability` POST handler, plus the availability read
used by the patient-facing routes).

Dates are modelled as day numbers (`Nat`), times as minutes of the day
(`Nat`).  Primary keys are explicit `Nat` ids with a per-table
autoincrement counter in the database state.  The `created_at` timestamp
columns are not modelled: no claim observes them.
-/

namespace Hospital

/-- Appointment status strings used by `app.py`: 'Booked', 'Completed',
'Cancelled'. -/
inductive Status where
  | Booked
  | Completed
  | Cancelled
deriving DecidableEq, Repr

/-- Typed errors of the core, following the spec taxonomy (§7).  A Flask
`first_or_404` / `get_or_404` failure is `NotFound`; the
"Time slot already booked" flash-and-redirect in `book_appointment` is
`Conflict`. -/
inductive Err where
  | NotFound
  | Forbidden
  | Conflict
  | Validation
deriving DecidableEq, Repr

/-- Row of the `Appointment` table (line 85 of app.py): patient_id,
doctor_id, appointment_date, appointment_time, status, reason. -/
structure Appointment where
  id : Nat
  patient_id : Nat
  doctor_id : Nat
  appointment_date : Nat
  appointment_time : Nat
  status : Status
  reason : String
deriving DecidableEq, Repr

/-- Row of the `Treatment` table (line 96): 1:1 with an appointment,
diagnosis, prescription, notes, optional follow-up date. -/
structure Treatment where
  id : Nat
  appointment_id : Nat
  diagnosis : String
  prescription : String
  notes : String
  follow_up_date : Option Nat
deriving DecidableEq, Repr

/-- Row of the `DoctorAvailability` table (line 77). -/
structure DoctorAvailability where
  id : Nat
  doctor_id : Nat
  date : Nat
  start_time : Nat
  end_time : Nat
  is_available : Bool
deriving DecidableEq, Repr

/-- The part of the relational store the core operations touch, with
autoincrement counters for the three tables. -/
structure DB where
  appointments : List Appointment
  treatments : List Treatment
  availabilities : List DoctorAvailability
  nextApptId : Nat
  nextTreatId : Nat
  nextAvailId : Nat
deriving DecidableEq, Repr

/-- Empty database. -/
def DB.empty : DB := ⟨[], [], [], 0, 0, 0⟩

/-- Mutating the single row returned by a SQLAlchemy `first()` query:
apply `f` to the first element satisfying `p`, keep everything else. -/
def updateFirst (p : α → Bool) (f : α → α) : List α → List α
  | [] => []
  | a :: rest => if p a then f a :: rest else a :: updateFirst p f rest

/-- Predicate of the conflict query in `book_appointment` (lines 486-487):
`Appointment.query.filter_by(doctor_id=..., appointment_date=...,
appointment_time=..., status='Booked')`. -/
def isBookedSlot (did d t : Nat) (a : Appointment) : Bool :=
  decide (a.doctor_id = did ∧ a.appointment_date = d ∧
    a.appointment_time = t ∧ a.status = Status.Booked)

/-- The `book_appointment` POST body (lines 483-494): if some appointment for
(doctor, date, time) has status Booked, flash "Time slot already booked"
(Conflict) and change nothing; otherwise insert a new Booked appointment. -/
def bookAppointment (s : DB) (patientId doctorId d t : Nat) (reason : String) :
    Option Err × DB :=
  match s.appointments.find? (isBookedSlot doctorId d t) with
  | some _ => (some Err.Conflict, s)
  | none =>
      (none, { s with
        appointments := s.appointments ++
          [⟨s.nextApptId, patientId, doctorId, d, t, Status.Booked, reason⟩],
        nextApptId := s.nextApptId + 1 })

/-- Predicate of `Appointment.query.filter_by(id=appointment_id,
patient_id=patient.id)` in `cancel_appointment` (line 513). -/
def ownedByPatient (aid pid : Nat) (a : Appointment) : Bool :=
  decide (a.id = aid ∧ a.patient_id = pid)

/-- Predicate of `Appointment.query.filter_by(id=appointment_id,
doctor_id=doctor.id)` in the doctor routes (lines 353, 379). -/
def ownedByDoctor (aid did : Nat) (a : Appointment) : Bool :=
  decide (a.id = aid ∧ a.doctor_id = did)

/-- Patient-initiated `cancel_appointment` (lines 508-518): `first_or_404`
on (id, patient_id); if the row's status is 'Booked' set it to 'Cancelled',
otherwise redirect without touching anything (silent no-op). -/
def cancelAppointment (s : DB) (aid pid : Nat) : Option Err × DB :=
  match s.appointments.find? (ownedByPatient aid pid) with
  | none => (some Err.NotFound, s)
  | some a =>
      if a.status = Status.Booked then
        let appts := updateFirst (ownedByPatient aid pid)
          (fun b => { b with status := Status.Cancelled }) s.appointments
        (none, { s with appointments := appts })
      else (none, s)

/-- Doctor-initiated `doctor_cancel_appointment` (lines 374-382):
`first_or_404` on (id, doctor_id), then set status to 'Cancelled'
unconditionally. -/
def doctorCancelAppointment (s : DB) (aid did : Nat) : Option Err × DB :=
  match s.appointments.find? (ownedByDoctor aid did) with
  | none => (some Err.NotFound, s)
  | some _ =>
      let appts := updateFirst (ownedByDoctor aid did)
        (fun b => { b with status := Status.Cancelled }) s.appointments
      (none, { s with appointments := appts })

/-- Form payload of `complete_appointment` (diagnosis, prescription,
notes, optional follow-up date field). -/
structure CompletionForm where
  diagnosis : String
  prescription : String
  notes : String
  follow_up_date : Option Nat
deriving DecidableEq, Repr

/-- Predicate of `Treatment.query.filter_by(appointment_id=...)`
(line 356). -/
def forAppointment (aid : Nat) (t : Treatment) : Bool :=
  decide (t.appointment_id = aid)

/-- Field updates on an existing Treatment row (lines 358-362): diagnosis,
prescription and notes are overwritten; follow_up_date only when the form
provides one. -/
def applyTreatmentForm (f : CompletionForm) (t : Treatment) : Treatment :=
  { t with
    diagnosis := f.diagnosis
    prescription := f.prescription
    notes := f.notes
    follow_up_date :=
      match f.follow_up_date with
      | some d => some d
      | none => t.follow_up_date }

/-- The `complete_appointment` POST body (lines 348-371): `first_or_404` on
(id, doctor_id); set status to 'Completed' unconditionally; then upsert
the Treatment row (overwrite the existing row if one exists, otherwise
insert a new one carrying the form fields). -/
def completeAppointment (s : DB) (aid did : Nat) (f : CompletionForm) :
    Option Err × DB :=
  match s.appointments.find? (ownedByDoctor aid did) with
  | none => (some Err.NotFound, s)
  | some _ =>
      let appts := updateFirst (ownedByDoctor aid did)
        (fun b => { b with status := Status.Completed }) s.appointments
      match s.treatments.find? (forAppointment aid) with
      | some _ =>
          (none, { s with
            appointments := appts,
            treatments := updateFirst (forAppointment aid)
              (applyTreatmentForm f) s.treatments })
      | none =>
          (none, { s with
            appointments := appts,
            treatments := s.treatments ++
              [⟨s.nextTreatId, aid, f.diagnosis, f.prescription, f.notes,
                f.follow_up_date⟩],
            nextTreatId := s.nextTreatId + 1 })

/-- The form fields for one day of the availability form: the
`available_{date}` checkbox and the `start_time_{date}` /
`end_time_{date}` text fields (`none` models a missing or empty field,
which is falsy in Python). -/
structure DayForm where
  available : Bool
  start_time : Option Nat
  end_time : Option Nat

/-- The window the form requests for day offset `i` (lines 406-409 of
app.py): present only when the checkbox is set and both time fields are
non-empty; there is no start < end check. -/
def dayEntry (form : Nat → DayForm) (i : Nat) : Option (Nat × Nat) :=
  if (form i).available then
    match (form i).start_time, (form i).end_time with
    | some st, some en => some (st, en)
    | _, _ => none
  else none

/-- Predicate of the delete query in `doctor_availability` (lines 401-402):
doctor's rows with `date >= today` and `date <= week_end`, where
`week_end = today + timedelta(days=7)` (line 399). -/
def inDeleteRange (did today : Nat) (w : DoctorAvailability) : Bool :=
  decide (w.doctor_id = did ∧ today ≤ w.date ∧ w.date ≤ today + 7)

/-- The rows inserted by the `for i in range(7)` loop (lines 403-412), with
sequential autoincrement ids starting at `n`.  Every inserted row has
`is_available=True` and date `today + i`. -/
def collectWindows (did today : Nat) (form : Nat → DayForm) :
    List Nat → Nat → List DoctorAvailability
  | [], _ => []
  | i :: rest, n =>
      match dayEntry form i with
      | some (st, en) =>
          ⟨n, did, today + i, st, en, true⟩ :: collectWindows did today form rest (n + 1)
      | none => collectWindows did today form rest n

/-- The `doctor_availability` POST body (lines 399-413): delete the doctor's
rows in the delete range, then insert one row per accepted form day. -/
def setAvailability (s : DB) (did today : Nat) (form : Nat → DayForm) : DB :=
  let kept := s.availabilities.filter (fun w => ! inDeleteRange did today w)
  let added := collectWindows did today form (List.range 7) s.nextAvailId
  { s with
    availabilities := kept ++ added,
    nextAvailId := s.nextAvailId + added.length }

/-- The availability read used by the patient-facing routes (lines
467-469, 480-482): doctor's rows with `fromD <= date <= toD` and
`is_available` set. -/
def getAvailability (s : DB) (did fromD toD : Nat) : List DoctorAvailability :=
  s.availabilities.filter
    (fun w => decide (w.doctor_id = did ∧ fromD ≤ w.date ∧ w.date ≤ toD) && w.is_available)

/-! ### Observations used by the claims -/

/-- All appointment rows occupying the slot (doctor, date, time),
regardless of status. -/
def slotRows (s : DB) (did d t : Nat) : List Appointment :=
  s.appointments.filter (fun a =>
    decide (a.doctor_id = did ∧ a.appointment_date = d ∧ a.appointment_time = t))

/-- The (doctor, date, time) slots of the Booked rows of a row list. -/
def bookedSlotsL (l : List Appointment) : List (Nat × Nat × Nat) :=
  l.filterMap (fun a =>
    if a.status = Status.Booked then
      some (a.doctor_id, a.appointment_date, a.appointment_time)
    else none)

/-- The (doctor, date, time) slots of the non-Cancelled (Booked or
Completed) rows of a row list. -/
def nonCancelledSlotsL (l : List Appointment) : List (Nat × Nat × Nat) :=
  l.filterMap (fun a =>
    if a.status = Status.Cancelled then none
    else some (a.doctor_id, a.appointment_date, a.appointment_time))

/-- No two Booked appointment rows share a (doctor, date, time) slot. -/
def noTwoBookedShareSlot (s : DB) : Prop :=
  (bookedSlotsL s.appointments).Nodup

/-- No two non-Cancelled appointment rows share a (doctor, date, time)
slot (the invariant claimed by the spec §3). -/
def noTwoNonCancelledShareSlot (s : DB) : Prop :=
  (nonCancelledSlotsL s.appointments).Nodup

instance (s : DB) : Decidable (noTwoBookedShareSlot s) := by
  unfold noTwoBookedShareSlot
  infer_instance

instance (s : DB) : Decidable (noTwoNonCancelledShareSlot s) := by
  unfold noTwoNonCancelledShareSlot
  infer_instance

/-- Treatment rows attached to a given appointment. -/
def treatmentsFor (s : DB) (aid : Nat) : List Treatment :=
  s.treatments.filter (forAppointment aid)

/-- The status of the appointment row with the given id, if any. -/
def apptStatus (s : DB) (aid : Nat) : Option Status :=
  (s.appointments.find? (fun a => decide (a.id = aid))).map (fun a => a.status)

/-! ### Concrete states and payloads used by witnesses and counterexamples -/

/-- An appointment-less form payload: diagnosis "flu". -/
def flu : CompletionForm := ⟨"flu", "rest", "", none⟩

/-- A second payload differing from `flu` in the diagnosis. -/
def cold : CompletionForm := ⟨"cold", "rest", "", none⟩

/-- State after booking slot (doctor 1, day 5, minute 30) for patient 1 in
an empty database: one Booked appointment with id 0. -/
def exBooked : DB := (bookAppointment DB.empty 1 1 5 30 "r").2

/-- State after doctor 1 completes appointment 0 in `exBooked`. -/
def exCompleted : DB := (completeAppointment exBooked 0 1 flu).2

/-- State after patient 2 books the same slot again on top of
`exCompleted`. -/
def exRebooked : DB := (bookAppointment exCompleted 2 1 5 30 "r").2

/-- A database whose only appointment row for slot (1, 5, 30) is
Cancelled. -/
def exCancelledSlot : DB :=
  ⟨[⟨0, 1, 1, 5, 30, Status.Cancelled, "r"⟩], [], [], 1, 0, 0⟩

/-- The single Booked appointment of `exOneBooked`: id 0, patient 1,
doctor 1, slot (5, 30). -/
def apptB : Appointment := ⟨0, 1, 1, 5, 30, Status.Booked, "r"⟩

/-- A database holding exactly `apptB`. -/
def exOneBooked : DB := ⟨[apptB], [], [], 1, 0, 0⟩

/-- An all-unchecked availability form: no day selected. -/
def emptyWeekForm : Nat → DayForm := fun _ => ⟨false, none, none⟩

/-- An availability form whose only entry, on day offset 0, has
start 600 and end 540 (start is not before end). -/
def backwardsForm : Nat → DayForm := fun i =>
  if i = 0 then ⟨true, some 600, some 540⟩ else ⟨false, none, none⟩

/-- An availability form whose only entry, on day offset 2, is
09:00-12:00 (minutes 540-720). -/
def day2Form : Nat → DayForm := fun i =>
  if i = 2 then ⟨true, some 540, some 720⟩ else ⟨false, none, none⟩

/-- An availability window of doctor 1 on day 108 (today+8 for
today = 100), outside every deletion range based at 100. -/
def farWindow : DoctorAvailability := ⟨0, 1, 108, 540, 720, true⟩

/-- A database holding only `farWindow`. -/
def exFarWindow : DB := ⟨[], [], [farWindow], 0, 0, 1⟩

/-- A database holding one availability window of doctor 1 on day 107,
i.e. exactly on today+7 for today = 100. -/
def exEdgeWindow : DB := ⟨[], [], [⟨0, 1, 107, 540, 720, true⟩], 0, 0, 1⟩

/-! ### Helper lemmas -/

theorem updateFirst_eq_self {p : α → Bool} {f : α → α}
    (hf : ∀ a, p a = true → f a = a) : ∀ l : List α, updateFirst p f l = l := by
  intro l
  induction l with
  | nil => rfl
  | cons a rest ih =>
      unfold updateFirst
      by_cases h : p a = true
      · rw [if_pos h, hf a h]
      · rw [if_neg h, ih]

theorem updateFirst_of_find?_none {p : α → Bool} {f : α → α} {l : List α}
    (h : l.find? p = none) : updateFirst p f l = l := by
  induction l with
  | nil => rfl
  | cons a rest ih =>
      rw [List.find?_cons] at h
      unfold updateFirst
      cases hpa : p a with
      | true => simp [hpa] at h
      | false =>
          simp only [hpa] at h
          simp [ih h]

theorem find?_updateFirst {p : α → Bool} {f : α → α} {l : List α} {a : α}
    (h : l.find? p = some a) (hfa : p (f a) = true) :
    (updateFirst p f l).find? p = some (f a) := by
  induction l with
  | nil => simp at h
  | cons b rest ih =>
      rw [List.find?_cons] at h
      unfold updateFirst
      cases hpb : p b with
      | true =>
          simp only [hpb] at h
          cases h
          simp [List.find?_cons, hfa]
      | false =>
          simp only [hpb] at h
          simp [List.find?_cons, hpb, ih h]

theorem mem_updateFirst_of_not_pred {p : α → Bool} {f : α → α} {l : List α} {b : α}
    (hb : b ∈ l) (hpb : p b = false) : b ∈ updateFirst p f l := by
  induction l with
  | nil => simp at hb
  | cons a rest ih =>
      unfold updateFirst
      rcases List.mem_cons.mp hb with h | h
      · subst h
        rw [if_neg (by simp [hpb])]
        exact List.mem_cons_self _ _
      · by_cases hpa : p a = true
        · rw [if_pos hpa]; exact List.mem_cons_of_mem _ h
        · rw [if_neg hpa]; exact List.mem_cons_of_mem _ (ih h)

theorem updateFirst_append_of_none {p : α → Bool} {f : α → α} {l1 : List α}
    (h : l1.find? p = none) (l2 : List α) :
    updateFirst p f (l1 ++ l2) = l1 ++ updateFirst p f l2 := by
  induction l1 with
  | nil => rfl
  | cons a rest ih =>
      rw [List.find?_cons] at h
      cases hpa : p a with
      | true => simp [hpa] at h
      | false =>
          simp only [hpa] at h
          simp [updateFirst, hpa, ih h]

theorem find?_append_of_none {p : α → Bool} {l1 : List α}
    (h : l1.find? p = none) (l2 : List α) :
    (l1 ++ l2).find? p = l2.find? p := by
  induction l1 with
  | nil => rfl
  | cons a rest ih =>
      rw [List.find?_cons] at h
      cases hpa : p a with
      | true => simp [hpa] at h
      | false =>
          simp only [hpa] at h
          rw [List.cons_append, List.find?_cons, hpa]
          exact ih h

theorem applyTreatmentForm_idem (f : CompletionForm) (t : Treatment) :
    applyTreatmentForm f (applyTreatmentForm f t) = applyTreatmentForm f t := by
  cases hfd : f.follow_up_date with
  | none => simp [applyTreatmentForm, hfd]
  | some d => simp [applyTreatmentForm, hfd]

theorem bookedSlotsL_append (l1 l2 : List Appointment) :
    bookedSlotsL (l1 ++ l2) = bookedSlotsL l1 ++ bookedSlotsL l2 := by
  unfold bookedSlotsL
  exact List.filterMap_append l1 l2 _

theorem updateFirst_idem {p : α → Bool} {g : α → α}
    (hp : ∀ a, p a = true → p (g a) = true) (hg : ∀ a, g (g a) = g a) :
    ∀ l : List α, updateFirst p g (updateFirst p g l) = updateFirst p g l := by
  intro l
  induction l with
  | nil => rfl
  | cons a rest ih =>
      by_cases hpa : p a = true
      · simp [updateFirst, hpa, hp a hpa, hg a]
      · simp only [updateFirst, if_neg hpa]
        rw [ih]

theorem bookedSlotsL_updateFirst_status {p : Appointment → Bool} {st : Status}
    (hst : ¬ st = Status.Booked) :
    ∀ l : List Appointment,
      List.Sublist
        (bookedSlotsL (updateFirst p (fun b => { b with status := st }) l))
        (bookedSlotsL l) := by
  intro l
  induction l with
  | nil => exact List.Sublist.refl _
  | cons a rest ih =>
      by_cases hpa : p a = true
      · simp only [updateFirst, if_pos hpa, bookedSlotsL, List.filterMap_cons]
        simp only [if_neg hst]
        by_cases hb : a.status = Status.Booked
        · simp only [if_pos hb]
          exact List.sublist_cons_of_sublist _ (List.Sublist.refl _)
        · simp only [if_neg hb]
          exact List.Sublist.refl _
      · simp only [updateFirst, if_neg hpa, bookedSlotsL, List.filterMap_cons]
        by_cases hb : a.status = Status.Booked
        · simp only [if_pos hb]
          exact List.Sublist.cons₂ _ (ih)
        · simp only [if_neg hb]
          exact ih

theorem not_mem_bookedSlotsL {l : List Appointment} {did d t : Nat}
    (h : ∀ a ∈ l, isBookedSlot did d t a = false) :
    (did, d, t) ∉ bookedSlotsL l := by
  intro hmem
  rw [bookedSlotsL, List.mem_filterMap] at hmem
  obtain ⟨a, ha, hsome⟩ := hmem
  by_cases hb : a.status = Status.Booked
  · rw [if_pos hb] at hsome
    injection hsome with h1
    have : isBookedSlot did d t a = true := by
      simp only [isBookedSlot, decide_eq_true_eq]
      have h1a : a.doctor_id = did := congrArg Prod.fst h1
      have h2a : a.appointment_date = d := congrArg (Prod.fst ∘ Prod.snd) h1
      have h3a : a.appointment_time = t := congrArg (Prod.snd ∘ Prod.snd) h1
      exact ⟨h1a, h2a, h3a, hb⟩
    rw [h a ha] at this
    exact Bool.false_ne_true this
  · rw [if_neg hb] at hsome
    exact Option.noConfusion hsome

theorem cancelAppointment_appointments (s : DB) (aid pid : Nat) :
    (cancelAppointment s aid pid).2.appointments = s.appointments ∨
    (cancelAppointment s aid pid).2.appointments =
      updateFirst (ownedByPatient aid pid)
        (fun b => { b with status := Status.Cancelled }) s.appointments := by
  unfold cancelAppointment
  cases s.appointments.find? (ownedByPatient aid pid) with
  | none => exact Or.inl rfl
  | some a =>
      dsimp only
      by_cases hb : a.status = Status.Booked
      · refine Or.inr ?_
        rw [if_pos hb]
      · refine Or.inl ?_
        rw [if_neg hb]

theorem doctorCancelAppointment_appointments (s : DB) (aid did : Nat) :
    (doctorCancelAppointment s aid did).2.appointments = s.appointments ∨
    (doctorCancelAppointment s aid did).2.appointments =
      updateFirst (ownedByDoctor aid did)
        (fun b => { b with status := Status.Cancelled }) s.appointments := by
  unfold doctorCancelAppointment
  cases s.appointments.find? (ownedByDoctor aid did) with
  | none => exact Or.inl rfl
  | some a => exact Or.inr rfl

theorem completeAppointment_appointments (s : DB) (aid did : Nat) (f : CompletionForm) :
    (completeAppointment s aid did f).2.appointments = s.appointments ∨
    (completeAppointment s aid did f).2.appointments =
      updateFirst (ownedByDoctor aid did)
        (fun b => { b with status := Status.Completed }) s.appointments := by
  unfold completeAppointment
  cases s.appointments.find? (ownedByDoctor aid did) with
  | none => exact Or.inl rfl
  | some a =>
      cases s.treatments.find? (forAppointment aid) with
      | none => exact Or.inr rfl
      | some t => exact Or.inr rfl

theorem mem_collectWindows {did today : Nat} {form : Nat → DayForm} :
    ∀ {l : List Nat} {n : Nat} {w : DoctorAvailability},
      w ∈ collectWindows did today form l n →
      w.doctor_id = did ∧ w.is_available = true ∧ n ≤ w.id ∧
        ∃ j ∈ l, w.date = today + j ∧
          dayEntry form j = some (w.start_time, w.end_time) := by
  intro l
  induction l with
  | nil =>
      intro n w hw
      simp [collectWindows] at hw
  | cons i rest ih =>
      intro n w hw
      unfold collectWindows at hw
      cases hde : dayEntry form i with
      | none =>
          rw [hde] at hw
          dsimp only at hw
          obtain ⟨h1, h2, h3, j, hj, hrest⟩ := ih hw
          exact ⟨h1, h2, h3, j, List.mem_cons_of_mem _ hj, hrest⟩
      | some pr =>
          obtain ⟨st, en⟩ := pr
          rw [hde] at hw
          dsimp only at hw
          rcases List.mem_cons.mp hw with h | h
          · subst h
            exact ⟨rfl, rfl, Nat.le_refl _, i, List.mem_cons_self _ _, rfl, hde⟩
          · obtain ⟨h1, h2, h3, j, hj, hrest⟩ := ih h
            exact ⟨h1, h2, Nat.le_of_succ_le h3, j, List.mem_cons_of_mem _ hj, hrest⟩

theorem collectWindows_filter_date_nil {did today : Nat} {form : Nat → DayForm} {i : Nat} :
    ∀ {l : List Nat}, (dayEntry form i = none ∨ i ∉ l) → ∀ n,
      (collectWindows did today form l n).filter
        (fun w => decide (w.date = today + i)) = [] := by
  intro l
  induction l with
  | nil => intro _ n; rfl
  | cons j rest ih =>
      intro h n
      have hrest : dayEntry form i = none ∨ i ∉ rest := by
        rcases h with h | h
        · exact Or.inl h
        · exact Or.inr (fun hi => h (List.mem_cons_of_mem _ hi))
      unfold collectWindows
      cases hde : dayEntry form j with
      | none => exact ih hrest n
      | some pr =>
          obtain ⟨st, en⟩ := pr
          have hji : ¬ j = i := by
            intro he
            subst he
            rcases h with h | h
            · rw [h] at hde; exact Option.noConfusion hde
            · exact h (List.mem_cons_self _ _)
          dsimp only
          rw [List.filter_cons]
          have hpred : (decide
              ((⟨n, did, today + j, st, en, true⟩ : DoctorAvailability).date = today + i)) = false := by
            simp only [decide_eq_false_iff_not]
            intro he
            exact hji (Nat.add_left_cancel he)
          rw [hpred]
          simp only [Bool.false_eq_true, if_false]
          exact ih hrest (n + 1)

theorem collectWindows_filter_date_some {did today : Nat} {form : Nat → DayForm}
    {i st en : Nat} (hde : dayEntry form i = some (st, en)) :
    ∀ {l : List Nat}, l.Nodup → i ∈ l → ∀ n,
      ∃ m, (collectWindows did today form l n).filter
        (fun w => decide (w.date = today + i)) = [⟨m, did, today + i, st, en, true⟩] := by
  intro l
  induction l with
  | nil => intro _ hi; exact absurd hi (List.not_mem_nil _)
  | cons j rest ih =>
      intro hnd hi n
      have hjrest : j ∉ rest := (List.nodup_cons.mp hnd).1
      have hndrest : rest.Nodup := (List.nodup_cons.mp hnd).2
      unfold collectWindows
      by_cases hji : j = i
      · subst hji
        rw [hde]
        dsimp only
        rw [List.filter_cons]
        have hpred : (decide
            ((⟨n, did, today + j, st, en, true⟩ : DoctorAvailability).date = today + j)) = true := by
          simp
        rw [hpred]
        simp only [if_true]
        refine ⟨n, ?_⟩
        rw [collectWindows_filter_date_nil (Or.inr hjrest) (n + 1)]
      · have hirest : i ∈ rest := by
          rcases List.mem_cons.mp hi with h | h
          · exact absurd h.symm hji
          · exact h
        cases hdej : dayEntry form j with
        | none => exact ih hndrest hirest n
        | some pr =>
            obtain ⟨st2, en2⟩ := pr
            dsimp only
            rw [List.filter_cons]
            have hpred : (decide
                ((⟨n, did, today + j, st2, en2, true⟩ : DoctorAvailability).date = today + i)) = false := by
              simp only [decide_eq_false_iff_not]
              intro he
              exact hji (Nat.add_left_cancel he)
            rw [hpred]
            simp only [Bool.false_eq_true, if_false]
            exact ih hndrest hirest (n + 1)

theorem isBookedSlot_new (n pid did d t : Nat) (r : String) :
    isBookedSlot did d t ⟨n, pid, did, d, t, Status.Booked, r⟩ = true := by
  simp [isBookedSlot]

theorem isBookedSlot_imp_slot {did d t : Nat} {a : Appointment}
    (h : isBookedSlot did d t a = true) :
    a.doctor_id = did ∧ a.appointment_date = d ∧ a.appointment_time = t := by
  simp only [isBookedSlot, decide_eq_true_eq] at h
  exact ⟨h.1, h.2.1, h.2.2.1⟩

theorem book_eq_conflict {s : DB} {pid did d t : Nat} {r : String}
    (h : ∃ a ∈ s.appointments, isBookedSlot did d t a = true) :
    bookAppointment s pid did d t r = (some Err.Conflict, s) := by
  have hs : (s.appointments.find? (isBookedSlot did d t)).isSome := by
    rw [List.find?_isSome]
    exact h
  unfold bookAppointment
  cases hfind : s.appointments.find? (isBookedSlot did d t) with
  | none => rw [hfind] at hs; simp at hs
  | some b => rfl

theorem book_eq_create {s : DB} {pid did d t : Nat} {r : String}
    (h : ∀ a ∈ s.appointments, isBookedSlot did d t a = false) :
    bookAppointment s pid did d t r =
      (none, { s with
        appointments := s.appointments ++
          [⟨s.nextApptId, pid, did, d, t, Status.Booked, r⟩],
        nextApptId := s.nextApptId + 1 }) := by
  have hnone : s.appointments.find? (isBookedSlot did d t) = none := by
    rw [List.find?_eq_none]
    intro a ha
    simp [h a ha]
  unfold bookAppointment
  rw [hnone]

theorem getAvailability_setAvailability (s : DB) (did today i : Nat)
    (form : Nat → DayForm) (h : i < 7) :
    getAvailability (setAvailability s did today form) did (today + i) (today + i) =
      (collectWindows did today form (List.range 7) s.nextAvailId).filter
        (fun w => decide (w.date = today + i)) := by
  unfold getAvailability setAvailability
  dsimp only
  rw [List.filter_append]
  have hkept : (s.availabilities.filter (fun w => ! inDeleteRange did today w)).filter
      (fun w => decide (w.doctor_id = did ∧ today + i ≤ w.date ∧ w.date ≤ today + i)
        && w.is_available) = [] := by
    rw [List.filter_eq_nil_iff]
    intro w hw
    have hnd : inDeleteRange did today w = false := by
      have := (List.mem_filter.mp hw).2
      cases hx : inDeleteRange did today w with
      | false => rfl
      | true => rw [hx] at this; exact absurd this (by simp)
    simp only [inDeleteRange, decide_eq_false_iff_not] at hnd
    simp only [Bool.and_eq_true, decide_eq_true_eq, not_and]
    intro hdec
    obtain ⟨h1, h2, h3⟩ := hdec
    exact absurd ⟨h1, by omega, by omega⟩ hnd
  rw [hkept, List.nil_append]
  apply List.filter_congr
  intro w hw
  obtain ⟨h1, h2, _, _⟩ := mem_collectWindows hw
  rw [h1, h2, Bool.and_true, decide_eq_decide]
  constructor
  · intro hx; omega
  · intro hx; omega

/-! ### Claims -/

/-- C1: if `bookAppointment` is called and some existing Appointment row
for that (doctor, date, time) has status Booked, the call fails with
Conflict and no new Appointment row is created; otherwise a new
Appointment with status Booked is created.  Booking the same slot twice
while the first booking stays Booked yields Conflict on the second call
and leaves exactly one Appointment row for that slot. -/
theorem C1_book_conflict_or_create (s : DB) (pid did d t : Nat) (r : String) :
    ((∃ a ∈ s.appointments, isBookedSlot did d t a = true) →
      bookAppointment s pid did d t r = (some Err.Conflict, s)) ∧
    ((∀ a ∈ s.appointments, isBookedSlot did d t a = false) →
      (bookAppointment s pid did d t r).1 = none ∧
      (bookAppointment s pid did d t r).2.appointments =
        s.appointments ++ [⟨s.nextApptId, pid, did, d, t, Status.Booked, r⟩]) ∧
    (slotRows s did d t = [] →
      bookAppointment (bookAppointment s pid did d t r).2 pid did d t r =
        (some Err.Conflict, (bookAppointment s pid did d t r).2) ∧
      (slotRows (bookAppointment s pid did d t r).2 did d t).length = 1) := by
  refine ⟨?_, ?_, ?_⟩
  · intro h
    rw [book_eq_conflict h]
  · intro hall
    rw [book_eq_create hall]
    exact ⟨rfl, rfl⟩
  · intro hempty
    have hall : ∀ a ∈ s.appointments, isBookedSlot did d t a = false := by
      intro a ha
      have := List.filter_eq_nil_iff.mp hempty a ha
      cases hb : isBookedSlot did d t a with
      | false => rfl
      | true =>
          obtain ⟨h1, h2, h3⟩ := isBookedSlot_imp_slot hb
          exact absurd (by simp [h1, h2, h3]) this
    rw [book_eq_create hall]
    constructor
    · exact book_eq_conflict
        ⟨⟨s.nextApptId, pid, did, d, t, Status.Booked, r⟩,
         List.mem_append_right _ (List.mem_singleton.mpr rfl),
         isBookedSlot_new _ _ _ _ _ _⟩
    · unfold slotRows
      simp only [List.filter_append]
      unfold slotRows at hempty
      rw [hempty]
      simp

/-- C4 counterexample: the claim says windows on today+7 or later are left
unchanged by `setAvailability`, but the delete query uses
`week_end = today + timedelta(days=7)`, so a window exactly on today+7
(day 107 for today = 100) is deleted. -/
theorem C4_counterexample :
    (setAvailability exEdgeWindow 1 100 emptyWeekForm).availabilities = [] ∧
    exEdgeWindow.availabilities ≠ [] := by decide

/-- C4 (amended): `setAvailability` removes exactly the doctor's windows
whose date falls within [today, today+7] (not today+6: the deletion
horizon includes today+7) and stores the provided windows, whose dates lie
within [today, today+6]; every window of another doctor or with a date
before today or after today+7 is left unchanged. -/
theorem C4_availability_frame (s : DB) (did today : Nat) (form : Nat → DayForm) :
    (∀ w ∈ s.availabilities, inDeleteRange did today w = false →
      w ∈ (setAvailability s did today form).availabilities) ∧
    (∀ w ∈ s.availabilities, inDeleteRange did today w = true →
      w.id < s.nextAvailId →
      w ∉ (setAvailability s did today form).availabilities) ∧
    (∀ w ∈ (setAvailability s did today form).availabilities,
      w ∈ s.availabilities ∨
        (w.doctor_id = did ∧ today ≤ w.date ∧ w.date ≤ today + 6 ∧
          w.is_available = true ∧ s.nextAvailId ≤ w.id)) := by
  refine ⟨?_, ?_, ?_⟩
  · intro w hw hrange
    unfold setAvailability
    dsimp only
    apply List.mem_append_left
    rw [List.mem_filter]
    exact ⟨hw, by rw [hrange]; rfl⟩
  · intro w hw hrange hid hmem
    unfold setAvailability at hmem
    dsimp only at hmem
    rcases List.mem_append.mp hmem with h | h
    · have := (List.mem_filter.mp h).2
      rw [hrange] at this
      exact absurd this (by simp)
    · obtain ⟨_, _, h3, _⟩ := mem_collectWindows h
      omega
  · intro w hw
    unfold setAvailability at hw
    dsimp only at hw
    rcases List.mem_append.mp hw with h | h
    · exact Or.inl (List.mem_filter.mp h).1
    · obtain ⟨h1, h2, h3, j, hj, hdate, _⟩ := mem_collectWindows h
      have hj7 : j < 7 := List.mem_range.mp hj
      exact Or.inr ⟨h1, by omega, by omega, h2, h3⟩

/-- Witness for C4: the window of doctor 1 on day 108 survives a refresh
based at today = 100. -/
theorem C4_witness :
    farWindow ∈ (setAvailability exFarWindow 1 100 emptyWeekForm).availabilities :=
  (C4_availability_frame exFarWindow 1 100 emptyWeekForm).1 farWindow
    (by decide) (by decide)

/-- C8 counterexample: the claim says every stored window satisfies
start < end, but the handler only checks that both fields are non-empty,
so a window with start 600 and end 540 is stored and returned by the
availability read. -/
theorem C8_counterexample :
    ((getAvailability (setAvailability DB.empty 1 100 backwardsForm) 1 100 100).all
      (fun w => decide (w.start_time < w.end_time)) = false) ∧
    (getAvailability (setAvailability DB.empty 1 100 backwardsForm) 1 100 100).length = 1 := by
  decide

/-- C8 (amended): for every doctor D, form W and day offset i < 7,
after `setAvailability(D, W)` the availability read for day today+i
returns exactly the window of W for that day whenever the day is selected
and both time fields are present (no start < end check is performed:
the window is returned whether or not start < end), and returns nothing
otherwise; malformed (missing-field) entries are skipped individually
without aborting the batch. -/
theorem C8_set_get_availability (s : DB) (did today i : Nat)
    (form : Nat → DayForm) (h : i < 7) :
    (∀ st en, dayEntry form i = some (st, en) →
      ∃ m, getAvailability (setAvailability s did today form) did (today + i) (today + i) =
        [⟨m, did, today + i, st, en, true⟩]) ∧
    (dayEntry form i = none →
      getAvailability (setAvailability s did today form) did (today + i) (today + i) = []) := by
  constructor
  · intro st en hde
    rw [getAvailability_setAvailability s did today i form h]
    exact collectWindows_filter_date_some hde (List.nodup_range 7)
      (List.mem_range.mpr h) s.nextAvailId
  · intro hde
    rw [getAvailability_setAvailability s did today i form h]
    exact collectWindows_filter_date_nil (Or.inl hde) s.nextAvailId

/-- Witness for C8: refreshing an empty database with a form whose only
window is 540-720 on day offset 2 makes the day-102 read return exactly
that window. -/
theorem C8_witness :
    ∃ m, getAvailability (setAvailability DB.empty 1 100 day2Form) 1 (100 + 2) (100 + 2) =
      [⟨m, 1, 100 + 2, 540, 720, true⟩] :=
  (C8_set_get_availability DB.empty 1 100 2 day2Form (by decide)).1 540 720 rfl

/-- C10: immediately after an availability refresh for doctor D, every
horizon date today+i (i < 7) carries at most one window for (D, today+i),
and every window stored by the refresh has is_available = true. -/
theorem C10_refresh_shape (s : DB) (did today i : Nat)
    (form : Nat → DayForm) (h : i < 7) :
    ((setAvailability s did today form).availabilities.filter
      (fun w => decide (w.doctor_id = did ∧ w.date = today + i))).length ≤ 1 ∧
    (∀ w ∈ (setAvailability s did today form).availabilities,
      w ∈ s.availabilities ∨ w.is_available = true) := by
  constructor
  · unfold setAvailability
    dsimp only
    rw [List.filter_append]
    have hkept : (s.availabilities.filter (fun w => ! inDeleteRange did today w)).filter
        (fun w => decide (w.doctor_id = did ∧ w.date = today + i)) = [] := by
      rw [List.filter_eq_nil_iff]
      intro w hw
      have hnd : inDeleteRange did today w = false := by
        have := (List.mem_filter.mp hw).2
        cases hx : inDeleteRange did today w with
        | false => rfl
        | true => rw [hx] at this; exact absurd this (by simp)
      simp only [inDeleteRange, decide_eq_false_iff_not] at hnd
      simp only [decide_eq_true_eq, not_and]
      intro h1 h2
      exact absurd ⟨h1, by omega, by omega⟩ hnd
    rw [hkept, List.nil_append]
    have hcongr : (collectWindows did today form (List.range 7) s.nextAvailId).filter
        (fun w => decide (w.doctor_id = did ∧ w.date = today + i)) =
        (collectWindows did today form (List.range 7) s.nextAvailId).filter
          (fun w => decide (w.date = today + i)) := by
      apply List.filter_congr
      intro w hw
      obtain ⟨h1, _, _, _⟩ := mem_collectWindows hw
      rw [decide_eq_decide]
      constructor
      · intro hx; exact hx.2
      · intro hx; exact ⟨h1, hx⟩
    rw [hcongr]
    cases hde : dayEntry form i with
    | none =>
        rw [collectWindows_filter_date_nil (Or.inl hde) s.nextAvailId]
        decide
    | some pr =>
        obtain ⟨st, en⟩ := pr
        obtain ⟨m, hm⟩ := collectWindows_filter_date_some hde (List.nodup_range 7)
          (List.mem_range.mpr h) s.nextAvailId
        rw [hm]
        exact Nat.le_refl 1
  · intro w hw
    unfold setAvailability at hw
    dsimp only at hw
    rcases List.mem_append.mp hw with hk | ha
    · exact Or.inl (List.mem_filter.mp hk).1
    · exact Or.inr (mem_collectWindows ha).2.1

/-- Witness for C10: after refreshing with the day-2 form, doctor 1 has at
most one window on day 102 and only available windows were stored. -/
theorem C10_witness :
    ((setAvailability DB.empty 1 100 day2Form).availabilities.filter
      (fun w => decide (w.doctor_id = 1 ∧ w.date = 100 + 2))).length ≤ 1 ∧
    (∀ w ∈ (setAvailability DB.empty 1 100 day2Form).availabilities,
      w ∈ DB.empty.availabilities ∨ w.is_available = true) :=
  C10_refresh_shape DB.empty 1 100 2 day2Form (by decide)

/-- Witness for C1: booking slot (doctor 1, day 5, minute 30) twice in an
empty database gives Conflict on the second call and one row for the
slot. -/
theorem C1_witness :
    bookAppointment (bookAppointment DB.empty 1 1 5 30 "r").2 1 1 5 30 "r" =
      (some Err.Conflict, (bookAppointment DB.empty 1 1 5 30 "r").2) ∧
    (slotRows (bookAppointment DB.empty 1 1 5 30 "r").2 1 5 30).length = 1 :=
  (C1_book_conflict_or_create DB.empty 1 1 5 30 "r").2.2 rfl

/-- C2 counterexample: the claimed invariant "no two non-cancelled
Appointments share (doctor, date, time)" is not preserved: from the
reachable state book → complete (which satisfies it), booking the same
slot again succeeds — the conflict check only looks at status Booked —
leaving a Completed and a Booked row on the same slot. -/
theorem C2_counterexample :
    noTwoNonCancelledShareSlot exCompleted ∧
    ¬ noTwoNonCancelledShareSlot exRebooked := by
  decide

/-- C2 (amended): the invariant actually preserved by every operation is
that no two Booked Appointment rows share the same (doctor, date, time). -/
theorem C2_booked_slot_invariant (s : DB) (pid did d t aid pid2 did2 did3 did4 today : Nat)
    (r : String) (f : CompletionForm) (form : Nat → DayForm)
    (h : noTwoBookedShareSlot s) :
    noTwoBookedShareSlot (bookAppointment s pid did d t r).2 ∧
    noTwoBookedShareSlot (completeAppointment s aid did2 f).2 ∧
    noTwoBookedShareSlot (cancelAppointment s aid pid2).2 ∧
    noTwoBookedShareSlot (doctorCancelAppointment s aid did3).2 ∧
    noTwoBookedShareSlot (setAvailability s did4 today form) := by
  refine ⟨?_, ?_, ?_, ?_, ?_⟩
  · by_cases hex : ∃ a ∈ s.appointments, isBookedSlot did d t a = true
    · rw [book_eq_conflict hex]
      exact h
    · have hall : ∀ a ∈ s.appointments, isBookedSlot did d t a = false := by
        intro a ha
        cases hb : isBookedSlot did d t a with
        | false => rfl
        | true => exact absurd ⟨a, ha, hb⟩ hex
      rw [book_eq_create hall]
      show (bookedSlotsL (s.appointments ++
        [⟨s.nextApptId, pid, did, d, t, Status.Booked, r⟩])).Nodup
      rw [bookedSlotsL_append]
      have hsing : bookedSlotsL
          [(⟨s.nextApptId, pid, did, d, t, Status.Booked, r⟩ : Appointment)] =
          [(did, d, t)] := by
        simp [bookedSlotsL]
      rw [hsing]
      apply List.Nodup.append h (List.nodup_singleton _)
      intro x hx hx2
      rw [List.mem_singleton] at hx2
      subst hx2
      exact not_mem_bookedSlotsL hall hx
  · rcases completeAppointment_appointments s aid did2 f with he | he
    · show (bookedSlotsL (completeAppointment s aid did2 f).2.appointments).Nodup
      rw [he]
      exact h
    · show (bookedSlotsL (completeAppointment s aid did2 f).2.appointments).Nodup
      rw [he]
      exact List.Nodup.sublist
        (bookedSlotsL_updateFirst_status (by decide) s.appointments) h
  · rcases cancelAppointment_appointments s aid pid2 with he | he
    · show (bookedSlotsL (cancelAppointment s aid pid2).2.appointments).Nodup
      rw [he]
      exact h
    · show (bookedSlotsL (cancelAppointment s aid pid2).2.appointments).Nodup
      rw [he]
      exact List.Nodup.sublist
        (bookedSlotsL_updateFirst_status (by decide) s.appointments) h
  · rcases doctorCancelAppointment_appointments s aid did3 with he | he
    · show (bookedSlotsL (doctorCancelAppointment s aid did3).2.appointments).Nodup
      rw [he]
      exact h
    · show (bookedSlotsL (doctorCancelAppointment s aid did3).2.appointments).Nodup
      rw [he]
      exact List.Nodup.sublist
        (bookedSlotsL_updateFirst_status (by decide) s.appointments) h
  · exact h

/-- Witness for C2: the amended invariant holds after booking into the
empty database. -/
theorem C2_witness :
    noTwoBookedShareSlot (bookAppointment DB.empty 1 1 5 30 "r").2 :=
  (C2_booked_slot_invariant DB.empty 1 1 5 30 0 1 1 1 1 100 "r" flu
    emptyWeekForm (by decide)).1

/-- C3 counterexample: a Completed (terminal) appointment is moved to
Cancelled by a doctor-initiated cancel, so a transition does leave a
terminal state. -/
theorem C3_counterexample :
    apptStatus exCompleted 0 = some Status.Completed ∧
    apptStatus (doctorCancelAppointment exCompleted 0 1).2 0 = some Status.Cancelled := by
  decide

/-- C3 (amended): only the patient-initiated cancel respects terminal
states (it changes nothing when the owned appointment is not Booked);
doctor-initiated cancel sets the status to Cancelled and
completeAppointment sets it to Completed unconditionally, whatever the
current status, so those two operations can leave a terminal state. -/
theorem C3_terminal_asymmetry (s : DB) (aid pid did : Nat) (f : CompletionForm) :
    ((∀ a ∈ s.appointments, ownedByPatient aid pid a = true →
        ¬ a.status = Status.Booked) →
      (cancelAppointment s aid pid).2 = s) ∧
    (∀ a, s.appointments.find? (ownedByDoctor aid did) = some a →
      (doctorCancelAppointment s aid did).2.appointments.find? (ownedByDoctor aid did) =
        some { a with status := Status.Cancelled }) ∧
    (∀ a, s.appointments.find? (ownedByDoctor aid did) = some a →
      (completeAppointment s aid did f).2.appointments.find? (ownedByDoctor aid did) =
        some { a with status := Status.Completed }) := by
  refine ⟨?_, ?_, ?_⟩
  · intro h
    unfold cancelAppointment
    cases hf : s.appointments.find? (ownedByPatient aid pid) with
    | none => rfl
    | some a =>
        dsimp only
        rw [if_neg (h a (List.mem_of_find?_eq_some hf) (List.find?_some hf))]
  · intro a hf
    unfold doctorCancelAppointment
    rw [hf]
    dsimp only
    have hp : ownedByDoctor aid did a = true := List.find?_some hf
    exact find?_updateFirst hf hp
  · intro a hf
    unfold completeAppointment
    rw [hf]
    dsimp only
    have hp : ownedByDoctor aid did a = true := List.find?_some hf
    cases htr : s.treatments.find? (forAppointment aid) with
    | none =>
        dsimp only
        exact find?_updateFirst hf hp
    | some t0 =>
        dsimp only
        exact find?_updateFirst hf hp

/-- Witness for C3: the patient-initiated cancel on the Completed
appointment of `exCompleted` leaves the state unchanged. -/
theorem C3_witness : (cancelAppointment exCompleted 0 1).2 = exCompleted :=
  (C3_terminal_asymmetry exCompleted 0 1 1 flu).1 (by decide)

/-- C5: if every appointment row for (doctor, date, time) has status
Cancelled, a new booking for that slot succeeds and creates a Booked
appointment: cancelled slots are reusable. -/
theorem C5_cancelled_slot_reusable (s : DB) (pid did d t : Nat) (r : String)
    (h : ∀ a ∈ slotRows s did d t, a.status = Status.Cancelled) :
    (bookAppointment s pid did d t r).1 = none ∧
    (bookAppointment s pid did d t r).2.appointments =
      s.appointments ++ [⟨s.nextApptId, pid, did, d, t, Status.Booked, r⟩] := by
  have hall : ∀ a ∈ s.appointments, isBookedSlot did d t a = false := by
    intro a ha
    cases hb : isBookedSlot did d t a with
    | false => rfl
    | true =>
        obtain ⟨h1, h2, h3⟩ := isBookedSlot_imp_slot hb
        have hmem : a ∈ slotRows s did d t := by
          unfold slotRows
          rw [List.mem_filter]
          exact ⟨ha, by simp [h1, h2, h3]⟩
        have hc := h a hmem
        simp only [isBookedSlot, decide_eq_true_eq] at hb
        rw [hc] at hb
        exact absurd hb.2.2.2 (by decide)
  rw [book_eq_create hall]
  exact ⟨rfl, rfl⟩

/-- Witness for C5: booking the slot of `exCancelledSlot` (whose only row
is Cancelled) succeeds. -/
theorem C5_witness :
    (bookAppointment exCancelledSlot 1 1 5 30 "r").1 = none ∧
    (bookAppointment exCancelledSlot 1 1 5 30 "r").2.appointments =
      exCancelledSlot.appointments ++
        [⟨exCancelledSlot.nextApptId, 1, 1, 5, 30, Status.Booked, "r"⟩] :=
  C5_cancelled_slot_reusable exCancelledSlot 1 1 5 30 "r" (by decide)

/-- C6: patient-initiated cancel on an owned appointment moves it to
Cancelled exactly when it is Booked (other rows untouched), and is a
silent no-op — no error — when the status is Cancelled or Completed;
doctor-initiated cancel on an owned appointment sets status Cancelled
unconditionally. -/
theorem C6_cancel_semantics (s : DB) (aid pid did : Nat) :
    (∀ a, s.appointments.find? (ownedByPatient aid pid) = some a →
      a.status = Status.Booked →
        (cancelAppointment s aid pid).1 = none ∧
        (cancelAppointment s aid pid).2.appointments.find? (ownedByPatient aid pid) =
          some { a with status := Status.Cancelled } ∧
        (∀ b ∈ s.appointments, ownedByPatient aid pid b = false →
          b ∈ (cancelAppointment s aid pid).2.appointments)) ∧
    (∀ a, s.appointments.find? (ownedByPatient aid pid) = some a →
      ¬ a.status = Status.Booked → cancelAppointment s aid pid = (none, s)) ∧
    (∀ a, s.appointments.find? (ownedByDoctor aid did) = some a →
      (doctorCancelAppointment s aid did).1 = none ∧
      (doctorCancelAppointment s aid did).2.appointments.find? (ownedByDoctor aid did) =
        some { a with status := Status.Cancelled }) := by
  refine ⟨?_, ?_, ?_⟩
  · intro a hf hb
    have hp : ownedByPatient aid pid a = true := List.find?_some hf
    unfold cancelAppointment
    rw [hf]
    dsimp only
    rw [if_pos hb]
    refine ⟨rfl, find?_updateFirst hf hp, ?_⟩
    intro b hbm hbp
    exact mem_updateFirst_of_not_pred hbm hbp
  · intro a hf hnb
    unfold cancelAppointment
    rw [hf]
    dsimp only
    rw [if_neg hnb]
  · intro a hf
    have hp : ownedByDoctor aid did a = true := List.find?_some hf
    unfold doctorCancelAppointment
    rw [hf]
    dsimp only
    exact ⟨rfl, find?_updateFirst hf hp⟩

/-- Witness for C6: cancelling the Booked appointment of `exOneBooked` as
its owning patient succeeds without error and sets it to Cancelled. -/
theorem C6_witness :
    (cancelAppointment exOneBooked 0 1).1 = none ∧
    (cancelAppointment exOneBooked 0 1).2.appointments.find? (ownedByPatient 0 1) =
      some { apptB with status := Status.Cancelled } ∧
    (∀ b ∈ exOneBooked.appointments, ownedByPatient 0 1 b = false →
      b ∈ (cancelAppointment exOneBooked 0 1).2.appointments) :=
  (C6_cancel_semantics exOneBooked 0 1 1).1 apptB rfl rfl

/-- C7: completeAppointment by the owning doctor succeeds, sets the
status to Completed, and upserts the Treatment record: starting from no
Treatment row, two calls whose payloads share the follow-up field (e.g.
differing only in diagnosis) leave exactly one Treatment row holding the
second call's values, and repeating a call with the same payload changes
nothing further. -/
theorem C7_complete_upsert (s : DB) (aid did : Nat) (a : Appointment)
    (f f1 f2 : CompletionForm)
    (hfind : s.appointments.find? (ownedByDoctor aid did) = some a) :
    ((completeAppointment s aid did f).1 = none ∧
      (completeAppointment s aid did f).2.appointments.find? (ownedByDoctor aid did) =
        some { a with status := Status.Completed }) ∧
    (treatmentsFor s aid = [] → f1.follow_up_date = f2.follow_up_date →
      treatmentsFor (completeAppointment
          (completeAppointment s aid did f1).2 aid did f2).2 aid =
        [⟨s.nextTreatId, aid, f2.diagnosis, f2.prescription, f2.notes,
          f2.follow_up_date⟩]) ∧
    completeAppointment (completeAppointment s aid did f).2 aid did f =
      (none, (completeAppointment s aid did f).2) := by
  have hp : ownedByDoctor aid did a = true := List.find?_some hfind
  have hfind2 : (updateFirst (ownedByDoctor aid did)
      (fun b => { b with status := Status.Completed }) s.appointments).find?
        (ownedByDoctor aid did) = some { a with status := Status.Completed } :=
    find?_updateFirst hfind hp
  have happ_idem : updateFirst (ownedByDoctor aid did)
      (fun b => { b with status := Status.Completed })
      (updateFirst (ownedByDoctor aid did)
        (fun b => { b with status := Status.Completed }) s.appointments) =
      updateFirst (ownedByDoctor aid did)
        (fun b => { b with status := Status.Completed }) s.appointments :=
    @updateFirst_idem Appointment (ownedByDoctor aid did)
      (fun b => { b with status := Status.Completed })
      (fun b hb => hb) (fun b => rfl) s.appointments
  refine ⟨?_, ?_, ?_⟩
  · unfold completeAppointment
    rw [hfind]
    dsimp only
    cases htr : s.treatments.find? (forAppointment aid) with
    | none => exact ⟨rfl, hfind2⟩
    | some t0 => exact ⟨rfl, hfind2⟩
  · intro hTnil hfol
    unfold treatmentsFor at hTnil
    have htrnone : s.treatments.find? (forAppointment aid) = none := by
      rw [List.find?_eq_none]
      intro t ht
      exact List.filter_eq_nil_iff.mp hTnil t ht
    have he1 : completeAppointment s aid did f1 = (none, { s with
        appointments := updateFirst (ownedByDoctor aid did)
          (fun b => { b with status := Status.Completed }) s.appointments,
        treatments := s.treatments ++
          [⟨s.nextTreatId, aid, f1.diagnosis, f1.prescription, f1.notes,
            f1.follow_up_date⟩],
        nextTreatId := s.nextTreatId + 1 }) := by
      unfold completeAppointment
      rw [hfind, htrnone]
    have htr2 : ((s.treatments ++
        [(⟨s.nextTreatId, aid, f1.diagnosis, f1.prescription, f1.notes,
          f1.follow_up_date⟩ : Treatment)]).find? (forAppointment aid)) =
        some ⟨s.nextTreatId, aid, f1.diagnosis, f1.prescription, f1.notes,
          f1.follow_up_date⟩ := by
      rw [find?_append_of_none htrnone]
      simp [List.find?_cons, forAppointment]
    have he2 : completeAppointment (completeAppointment s aid did f1).2 aid did f2 =
        (none, { s with
          appointments := updateFirst (ownedByDoctor aid did)
            (fun b => { b with status := Status.Completed })
            (updateFirst (ownedByDoctor aid did)
              (fun b => { b with status := Status.Completed }) s.appointments),
          treatments := updateFirst (forAppointment aid) (applyTreatmentForm f2)
            (s.treatments ++
              [⟨s.nextTreatId, aid, f1.diagnosis, f1.prescription, f1.notes,
                f1.follow_up_date⟩]),
          nextTreatId := s.nextTreatId + 1 }) := by
      rw [he1]
      unfold completeAppointment
      dsimp only
      rw [hfind2, htr2]
    rw [he2]
    unfold treatmentsFor
    dsimp only
    rw [updateFirst_append_of_none htrnone]
    have hT1 : updateFirst (forAppointment aid) (applyTreatmentForm f2)
        [⟨s.nextTreatId, aid, f1.diagnosis, f1.prescription, f1.notes,
          f1.follow_up_date⟩] =
        [applyTreatmentForm f2 ⟨s.nextTreatId, aid, f1.diagnosis, f1.prescription,
          f1.notes, f1.follow_up_date⟩] := by
      unfold updateFirst
      rw [if_pos (by simp [forAppointment])]
    have hT2 : applyTreatmentForm f2 ⟨s.nextTreatId, aid, f1.diagnosis,
        f1.prescription, f1.notes, f1.follow_up_date⟩ =
        ⟨s.nextTreatId, aid, f2.diagnosis, f2.prescription, f2.notes,
          f2.follow_up_date⟩ := by
      cases hfd : f2.follow_up_date with
      | some d2 => simp [applyTreatmentForm, hfd]
      | none => simp [applyTreatmentForm, hfd, hfol]
    rw [hT1, hT2, List.filter_append, hTnil]
    simp [forAppointment]
  · cases htr : s.treatments.find? (forAppointment aid) with
    | none =>
        have he1 : completeAppointment s aid did f = (none, { s with
            appointments := updateFirst (ownedByDoctor aid did)
              (fun b => { b with status := Status.Completed }) s.appointments,
            treatments := s.treatments ++
              [⟨s.nextTreatId, aid, f.diagnosis, f.prescription, f.notes,
                f.follow_up_date⟩],
            nextTreatId := s.nextTreatId + 1 }) := by
          unfold completeAppointment
          rw [hfind, htr]
        have htr2 : ((s.treatments ++
            [(⟨s.nextTreatId, aid, f.diagnosis, f.prescription, f.notes,
              f.follow_up_date⟩ : Treatment)]).find? (forAppointment aid)) =
            some ⟨s.nextTreatId, aid, f.diagnosis, f.prescription, f.notes,
              f.follow_up_date⟩ := by
          rw [find?_append_of_none htr]
          simp [List.find?_cons, forAppointment]
        rw [he1]
        unfold completeAppointment
        dsimp only
        rw [hfind2, htr2]
        dsimp only
        rw [happ_idem, updateFirst_append_of_none htr]
        have hTf : updateFirst (forAppointment aid) (applyTreatmentForm f)
            [⟨s.nextTreatId, aid, f.diagnosis, f.prescription, f.notes,
              f.follow_up_date⟩] =
            [⟨s.nextTreatId, aid, f.diagnosis, f.prescription, f.notes,
              f.follow_up_date⟩] := by
          unfold updateFirst
          rw [if_pos (by simp [forAppointment])]
          have : applyTreatmentForm f ⟨s.nextTreatId, aid, f.diagnosis,
              f.prescription, f.notes, f.follow_up_date⟩ =
              ⟨s.nextTreatId, aid, f.diagnosis, f.prescription, f.notes,
                f.follow_up_date⟩ := by
            cases hfd : f.follow_up_date with
            | some d2 => simp [applyTreatmentForm, hfd]
            | none => simp [applyTreatmentForm, hfd]
          rw [this]
        rw [hTf]
    | some t0 =>
        have hpt : forAppointment aid t0 = true := List.find?_some htr
        have he1 : completeAppointment s aid did f = (none, { s with
            appointments := updateFirst (ownedByDoctor aid did)
              (fun b => { b with status := Status.Completed }) s.appointments,
            treatments := updateFirst (forAppointment aid)
              (applyTreatmentForm f) s.treatments }) := by
          unfold completeAppointment
          rw [hfind, htr]
        have htr2 : ((updateFirst (forAppointment aid) (applyTreatmentForm f)
            s.treatments).find? (forAppointment aid)) =
            some (applyTreatmentForm f t0) :=
          find?_updateFirst htr hpt
        rw [he1]
        unfold completeAppointment
        dsimp only
        rw [hfind2, htr2]
        dsimp only
        rw [happ_idem,
          @updateFirst_idem Treatment (forAppointment aid) (applyTreatmentForm f)
            (fun t htp => htp) (applyTreatmentForm_idem f) s.treatments]

/-- Witness for C7: completing appointment 0 of `exOneBooked` with
diagnosis "flu" and then "cold" leaves exactly one Treatment row holding
the "cold" payload. -/
theorem C7_witness :
    treatmentsFor (completeAppointment
        (completeAppointment exOneBooked 0 1 flu).2 0 1 cold).2 0 =
      [⟨exOneBooked.nextTreatId, 0, cold.diagnosis, cold.prescription,
        cold.notes, cold.follow_up_date⟩] :=
  (C7_complete_upsert exOneBooked 0 1 apptB cold flu cold rfl).2.1 rfl rfl

/-- C9 counterexample: a cancel request on appointment 0 (owned by
patient 1) issued by patient 2 fails with NotFound — the lookup is
filtered by (id, patient_id) and 404s — not with the claimed Forbidden
error; the state is unchanged. -/
theorem C9_counterexample :
    cancelAppointment exOneBooked 0 2 = (some Err.NotFound, exOneBooked) ∧
    Err.NotFound ≠ Err.Forbidden := by
  decide

/-- C9 (amended): cancelAppointment invoked by a patient who owns no row
with the given appointment id fails with NotFound (not Forbidden: the
ownership-filtered lookup reports a missing row) and leaves the entire
state unchanged. -/
theorem C9_nonowner_cancel (s : DB) (aid q : Nat)
    (h : ∀ a ∈ s.appointments, a.id = aid → ¬ a.patient_id = q) :
    cancelAppointment s aid q = (some Err.NotFound, s) := by
  have hnone : s.appointments.find? (ownedByPatient aid q) = none := by
    rw [List.find?_eq_none]
    intro a ha
    simp only [ownedByPatient, decide_eq_true_eq, not_and]
    intro h1
    exact h a ha h1
  unfold cancelAppointment
  rw [hnone]

/-- Witness for C9: patient 3 cancelling appointment 0 of `exOneBooked`
gets NotFound and the database is untouched. -/
theorem C9_witness :
    cancelAppointment exOneBooked 0 3 = (some Err.NotFound, exOneBooked) :=
  C9_nonowner_cancel exOneBooked 0 3 (by decide)

end Hospital
